import Mathlib

/-!
Shallow embedding of the priority and combat resolution engine of
`src/main.rs` (rusty_cards). Rust `Entity` identifiers are modelled as
natural numbers; ECS queries become association-list lookups carried in a
read-only context `Ctx` (immutable component data) or in the mutable
`EngineState` (data the systems write). `u16` arithmetic is modelled on
`Nat`: additions and subtractions that the source performs with unchecked
`u16` operators wrap modulo 2^16 (the release-build semantics); an
`unwrap`/`expect` on a missing value, and the overflow-checked panics of
debug builds where a claim refers to them, are modelled by systems
returning `Option` with `none` standing for a panic. `println!` calls are
dropped except for the two rejection messages of `evaluate_cost`, which
claims C3 and C9 refer to ("surfaced to the actor"); those are modelled as
an append-only `log`.
-/

namespace RustyCards

/-- Rust `Entity` (bevy_ecs identifier), modelled as a natural number. -/
abbrev Entity := Nat

/-- Modulus of the `u16` arithmetic used by the source. -/
def u16Mod : Nat := 65536

/-- `enum CardType { Action, Instant, Resource }` from `src/main.rs`. -/
inductive CardType where
  | Action
  | Instant
  | Resource
deriving DecidableEq, Repr

/-- `CardType::is_action` from `src/main.rs`. -/
def CardType.is_action : CardType → Bool
  | .Action => true
  | _ => false

/-- `CardType::is_playable` from `src/main.rs`. -/
def CardType.is_playable : CardType → Bool
  | .Action => true
  | .Instant => true
  | _ => false

/-- `struct GameEvent { target, card, actor, attack }` from `src/main.rs`. -/
structure GameEvent where
  target : Option Entity
  card : Entity
  actor : Entity
  attack : Bool
deriving DecidableEq, Repr

/-- `struct ChainLink` from `src/main.rs`. -/
structure ChainLink where
  target : Entity
  attacker : Entity
  attack : Entity
  blocks : List Entity
  attackReactions : List Entity
  defenseReactions : List Entity
  hit : Bool
  closed : Bool
deriving DecidableEq, Repr

/-- `ChainLink::attack` constructor from `src/main.rs`. -/
def ChainLink.mkAttack (target attacker attack : Entity) : ChainLink :=
  { target := target, attacker := attacker, attack := attack,
    blocks := [], attackReactions := [], defenseReactions := [],
    hit := false, closed := false }

/-- `struct Chain { links, open }` from `src/main.rs`.
The Rust field `open` is a Lean keyword, so it is named `openFlag`. -/
structure Chain where
  links : List ChainLink
  openFlag : Bool
deriving DecidableEq, Repr

/-- `Chain::add_chain_link` from `src/main.rs`. -/
def Chain.add_chain_link (c : Chain) (l : ChainLink) : Chain :=
  { links := c.links ++ [l], openFlag := true }

/-- Replace the last chain link (models a write through `links.last_mut()`;
callers establish that the chain is non-empty). -/
def Chain.setLast (c : Chain) (l : ChainLink) : Chain :=
  { c with links := c.links.dropLast ++ [l] }

/-- `enum GamePhases` from `src/main.rs`. -/
inductive GamePhases where
  | StartPhase
  | ActionPhase
  | EndPhase
deriving DecidableEq, Repr

/-- `enum CombatSteps` from `src/main.rs`. -/
inductive CombatSteps where
  | LayerStep
  | AttackStep
  | DefendStep
  | ReactionStep
  | DamageStep
  | ResolutionStep
  | LinkStep
  | CloseStep
deriving DecidableEq, Repr

/-- `struct Priority` from `src/main.rs`: a zipper of `holding` and
`passed` participants (VecDeque fronts are list heads) plus the three
flags `hold`, `blocks` and `card_played`. -/
structure Priority where
  holding : List Entity
  passed : List Entity
  hold : Bool
  blocks : Bool
  card_played : Bool
deriving DecidableEq, Repr

namespace Priority

/-- `Priority::hold_priority` from `src/main.rs`. -/
def hold_priority (p : Priority) : Priority := { p with hold := true }

/-- `Priority::release_priority` from `src/main.rs`. -/
def release_priority (p : Priority) : Priority := { p with hold := false }

/-- `Priority::has_priority` from `src/main.rs`. -/
def has_priority (p : Priority) (e : Entity) : Bool :=
  (match p.holding.head? with
   | some v => v == e
   | none => false) && !p.blocks

/-- `Priority::is_blocking` from `src/main.rs`. -/
def is_blocking (p : Priority) (e : Entity) : Bool :=
  (match p.holding.head? with
   | some v => v == e
   | none => false) && p.blocks

/-- `Priority::priority_hero` from `src/main.rs`. -/
def priority_hero (p : Priority) : Option Entity := p.holding.head?

/-- `Priority::turn_player` from `src/main.rs`; `none` models the
`expect("At least one player should exist")` panic. -/
def turn_player (p : Priority) : Option Entity :=
  match p.holding.head? with
  | some e => some e
  | none => p.passed.head?

/-- `Priority::reset` from `src/main.rs`: `passed.append(&mut holding)`
followed by `holding = passed.drain(..).collect()`. -/
def reset (p : Priority) : Priority :=
  { p with holding := p.passed ++ p.holding, passed := [] }

/-- The `if let Some(hero) = self.holding.pop_front()` move at the start of
`Priority::pass_priority` in `src/main.rs`. -/
def passMove (p : Priority) : Priority :=
  match p.holding with
  | [] => p
  | h :: t => { p with holding := t, passed := p.passed ++ [h] }

/-- `Priority::pass_priority` from `src/main.rs`: move the head of holding
to the back of passed, then reset when `passed.is_empty() && card_played`. -/
def pass_priority (p : Priority) : Priority :=
  let q := p.passMove
  if q.passed.isEmpty && q.card_played then q.reset else q

/-- `Priority::all_passed` from `src/main.rs`. -/
def all_passed (p : Priority) : Bool := p.holding.isEmpty && !p.hold

/-- `Priority::cycle_priority` from `src/main.rs`: `reset()` then
`holding.rotate_left(1)`; `none` models the `VecDeque::rotate_left` panic
when holding is empty after the reset. -/
def cycle_priority (p : Priority) : Option Priority :=
  let q := p.reset
  if q.holding.isEmpty then none
  else some { q with holding := q.holding.rotate 1 }

/-- `Priority::someone_has_priority` from `src/main.rs`. -/
def someone_has_priority (p : Priority) : Bool :=
  !(p.holding.isEmpty || p.hold)

end Priority

/-- Mutable per-hero components (`Resources`, `ActionPoints`, `HandZone`,
`PitchZone`); the `HeroBundle` in `src/main.rs` spawns all of them
together, so the several hero queries of the source all read the same
association list. -/
structure HeroState where
  resources : Nat
  actionPoints : Nat
  hand : List Entity
  pitch : List Entity
deriving DecidableEq, Repr

/-- Rejection messages printed by `evaluate_cost` in `src/main.rs`
("surfaced to the actor" in the spec's words). -/
inductive Msg where
  | noActionPoints
  | notEnoughResources (needed : Nat)
deriving DecidableEq, Repr

/-- The mutable resources of the engine: `Priority`, `Stack` (a
VecDeque whose front is the list head; `push_front` is cons),
`AttackLayer`, `ProposedEvent`, `CombatState`, `GameState`, `Chain`, plus
the mutable hero components and the `Health` component map used by
`trigger_damage_step`'s defender query. -/
structure EngineState where
  priority : Priority
  stack : List GameEvent
  attackLayer : Option GameEvent
  proposedEvent : Option GameEvent
  combatState : Option CombatSteps
  gameState : GamePhases
  chain : Chain
  heroStates : List (Entity × HeroState)
  healths : List (Entity × Nat)
  log : List Msg
deriving DecidableEq, Repr

/-- Read-only component data (never written by the embedded systems):
each field models one of the source's read-only queries.
`cost` is `evaluate_cost`'s `(&CardName, &CardType, &Cost)` query (the
name, used only for printing, is dropped); `playMeta` is `read_card`'s
`(&CardName, &CardType, &CardSubTypes)` query where the Bool is
`CardSubTypes::has_attack` (identical to `requires_target`); `pitchMeta`
is `read_pitch`'s `(&CardName, &Color)` query reduced to `Color::pitch`;
`attackPower` and `defense` are the `Attack` and `Defense` component maps;
`entities` is the bare `Query<Entity>` existence check; `heroEntities`
lists entities with the `Hero` marker; `subtyped` lists entities with a
`CardSubTypes` component; `named` lists entities with a `CardName`;
`players` lists entities with a `PlayerName`. -/
structure Ctx where
  cost : List (Entity × (CardType × Nat))
  playMeta : List (Entity × (CardType × Bool))
  pitchMeta : List (Entity × Nat)
  attackPower : List (Entity × Nat)
  defense : List (Entity × Nat)
  entities : List Entity
  heroEntities : List Entity
  subtyped : List Entity
  named : List Entity
  players : List Entity
deriving DecidableEq, Repr

/-- Write through a `get_mut` on an association list: update the value at
key `e` in place. -/
def updateAssoc {α : Type} (l : List (Entity × α)) (e : Entity) (f : α → α) :
    List (Entity × α) :=
  l.map (fun kv => if kv.1 = e then (kv.1, f kv.2) else kv)

/-- `game_systems::evaluate_cost` from `src/main.rs`. `none` models a
panic: the `expect` on the cost query, the `unwrap` on `priority_hero`,
the `expect` on the resources query — and, decisively, the second
`proposed_event.0.take().unwrap()` on the non-attack branch (line 651),
which unwraps an Option already emptied by the take at line 646. -/
def evaluate_cost (ctx : Ctx) (s : EngineState) : Option EngineState :=
  match s.proposedEvent with
  | none => some s
  | some event =>
    match List.lookup event.card ctx.cost with
    | none => none
    | some (card_type, card_cost) =>
      match s.priority.priority_hero with
      | none => none
      | some ph =>
        match List.lookup ph s.heroStates with
        | none => none
        | some hs =>
          if card_type.is_action && hs.actionPoints == 0 then
            some { s with proposedEvent := none,
                          priority := s.priority.release_priority,
                          log := s.log ++ [Msg.noActionPoints] }
          else if hs.resources < card_cost then
            some { s with priority := s.priority.release_priority,
                          log := s.log ++ [Msg.notEnoughResources (card_cost - hs.resources)] }
          else
            let hs2 : HeroState :=
              { hs with resources := hs.resources - card_cost,
                        actionPoints :=
                          if card_type.is_action then hs.actionPoints - 1
                          else hs.actionPoints }
            let s2 := { s with heroStates := updateAssoc s.heroStates ph (fun _ => hs2),
                               proposedEvent := none }
            if event.attack then
              some { s2 with attackLayer := some event,
                             priority := { s2.priority.hold_priority with card_played := true } }
            else
              none

/-- `game_systems::resolve_stack` from `src/main.rs`. -/
def resolve_stack (ctx : Ctx) (s : EngineState) : EngineState :=
  if s.priority.all_passed && !s.stack.isEmpty then
    match s.stack with
    | [] => s
    | next :: rest =>
      if ctx.subtyped.contains next.card then { s with stack := rest }
      else if next.attack then
        { s with stack := rest, combatState := some CombatSteps.CloseStep }
      else { s with stack := rest }
  else s

/-- `combat_systems::trigger_layer_step` from `src/main.rs`; the
`attack_layer.is_changed()` edge detection is passed in as a Bool. -/
def trigger_layer_step (attackLayerChanged : Bool) (s : EngineState) : EngineState :=
  if !attackLayerChanged || s.attackLayer.isNone then s
  else if !((s.combatState.map (fun v => v == CombatSteps.LinkStep)).getD true) then
    { s with attackLayer := none }
  else
    { s with combatState := some CombatSteps.LayerStep,
             priority := s.priority.release_priority }

/-- `combat_systems::trigger_attack_step` from `src/main.rs`; the
`priority.is_changed()` edge detection is passed in as a Bool. The
function is total: every `unwrap` in the source is guarded by the
preceding `is_none`/`is_err` checks. -/
def trigger_attack_step (priorityChanged : Bool) (ctx : Ctx) (s : EngineState) :
    EngineState :=
  if (s.combatState == some CombatSteps.LayerStep) && priorityChanged
      && s.priority.all_passed then
    let s1 := { s with combatState := some CombatSteps.AttackStep }
    match s1.attackLayer with
    | none => { s1 with combatState := some CombatSteps.CloseStep }
    | some attack =>
      let s2 := { s1 with attackLayer := none }
      match attack.target with
      | none => { s2 with combatState := some CombatSteps.CloseStep }
      | some tgt =>
        if ctx.entities.contains tgt then
          { s2 with chain := s2.chain.add_chain_link
                      (ChainLink.mkAttack tgt attack.actor attack.card),
                    priority := s2.priority.reset }
        else { s2 with combatState := some CombatSteps.CloseStep }
  else s

/-- `combat_systems::trigger_defend_step` from `src/main.rs` (both
sequential `if` blocks); `none` models the two `expect` panics. -/
def trigger_defend_step (priorityChanged : Bool) (ctx : Ctx) (s : EngineState) :
    Option EngineState :=
  let first : Option EngineState :=
    if (s.combatState == some CombatSteps.AttackStep) && priorityChanged
        && s.priority.all_passed && s.stack.isEmpty then
      let s1 := { s with combatState := some CombatSteps.DefendStep,
                         priority := { s.priority with blocks := true } }
      match s.chain.links.getLast? with
      | none => none
      | some link =>
        if !ctx.entities.contains link.target then none
        else if ctx.heroEntities.contains link.target then
          some { s1 with priority := s1.priority.reset.pass_priority }
        else some s1
    else some s
  match first with
  | none => none
  | some s1 =>
    if (s1.combatState == some CombatSteps.DefendStep) && priorityChanged
        && s1.priority.all_passed && s1.priority.blocks then
      some { s1 with priority := Priority.reset { s1.priority with blocks := false } }
    else some s1

/-- `combat_systems::trigger_reaction_step` from `src/main.rs`. -/
def trigger_reaction_step (priorityChanged : Bool) (s : EngineState) : EngineState :=
  if (s.combatState == some CombatSteps.DefendStep) && priorityChanged
      && s.priority.all_passed && s.stack.isEmpty then
    { s with priority := s.priority.reset,
             combatState := some CombatSteps.ReactionStep }
  else s

/-- One `total_defense += defense.0` loop iteration of
`trigger_damage_step` (`u16` addition wraps). -/
def addDefense (ctx : Ctx) (acc : Nat) (e : Entity) : Nat :=
  match List.lookup e ctx.defense with
  | some d => (acc + d) % u16Mod
  | none => acc

/-- The two defense accumulation loops of `trigger_damage_step`. -/
def totalDefense (ctx : Ctx) (link : ChainLink) : Nat :=
  link.defenseReactions.foldl (addDefense ctx)
    (link.blocks.foldl (addDefense ctx) 0)

/-- The wrapping `u16` subtraction performed by `health.0 -= dmg` in
`trigger_damage_step` (release-build semantics; debug builds panic on the
same underflow). Both operands are `u16` values, hence below `u16Mod`. -/
def healthSub (h dmg : Nat) : Nat := (h + u16Mod - dmg) % u16Mod

/-- `combat_systems::trigger_damage_step` from `src/main.rs`; `none`
models the `unwrap` on the last chain link and the two `expect`s. -/
def trigger_damage_step (priorityChanged : Bool) (ctx : Ctx) (s : EngineState) :
    Option EngineState :=
  if (s.combatState == some CombatSteps.ReactionStep) && priorityChanged
      && s.priority.all_passed && s.stack.isEmpty then
    let pr := s.priority.hold_priority
    match s.chain.links.getLast? with
    | none => none
    | some link =>
      match List.lookup link.attack ctx.attackPower with
      | none => none
      | some attack =>
        let total_defense := totalDefense ctx link
        if total_defense ≤ attack then
          match List.lookup link.target s.healths with
          | none => none
          | some _ =>
            let dmg := attack - total_defense
            some { s with priority := pr,
                          combatState := some CombatSteps.DamageStep,
                          chain := s.chain.setLast { link with hit := true },
                          healths := updateAssoc s.healths link.target
                            (fun hv => healthSub hv dmg) }
        else
          some { s with priority := pr,
                        combatState := some CombatSteps.DamageStep }
  else some s

/-- `combat_systems::trigger_resolution_step` from `src/main.rs`; `none`
models the `expect` on the last chain link. -/
def trigger_resolution_step (s : EngineState) : Option EngineState :=
  if s.combatState == some CombatSteps.DamageStep then
    match s.chain.links.getLast? with
    | none => none
    | some link =>
      some { s with combatState := some CombatSteps.ResolutionStep,
                    chain := s.chain.setLast { link with closed := true },
                    priority := s.priority.reset.release_priority }
  else some s

/-- `combat_systems::trigger_link_step` from `src/main.rs`. -/
def trigger_link_step (priorityChanged : Bool) (s : EngineState) : EngineState :=
  if (s.combatState == some CombatSteps.ResolutionStep) && priorityChanged
      && s.priority.all_passed && s.stack.isEmpty then
    { s with combatState := some CombatSteps.LinkStep,
             priority := s.priority.reset }
  else s

/-- `combat_systems::trigger_close_step` from `src/main.rs`. -/
def trigger_close_step (priorityChanged : Bool) (s : EngineState) : EngineState :=
  if (s.combatState == some CombatSteps.LinkStep) && priorityChanged
      && s.priority.all_passed && s.stack.isEmpty then
    { s with combatState := some CombatSteps.CloseStep,
             priority := s.priority.reset }
  else s

/-- `state_change_systems::start_start_phase` from `src/main.rs`: its body
only prints, so the embedding is the identity. -/
def start_start_phase (_gameStateChanged : Bool) (s : EngineState) : EngineState := s

/-- `state_change_systems::end_start_phase` from `src/main.rs`. -/
def end_start_phase (s : EngineState) : EngineState :=
  if (s.gameState == GamePhases.StartPhase) && s.stack.isEmpty then
    { s with gameState := GamePhases.ActionPhase }
  else s

/-- `state_change_systems::start_action_phase` from `src/main.rs`; `none`
models the `rotate_left` panic inside `cycle_priority`, the
`turn_player` panic, and the `expect` on the hero query. -/
def start_action_phase (gameStateChanged : Bool) (s : EngineState) :
    Option EngineState :=
  if (s.gameState == GamePhases.ActionPhase) && gameStateChanged then
    match s.priority.cycle_priority with
    | none => none
    | some pr =>
      match pr.turn_player with
      | none => none
      | some tp =>
        match List.lookup tp s.heroStates with
        | none => none
        | some _ =>
          some { s with priority := pr,
                        heroStates := updateAssoc s.heroStates tp
                          (fun hs => { hs with actionPoints := 1 }) }
  else some s

/-- `state_change_systems::end_action_phase` from `src/main.rs`. -/
def end_action_phase (priorityChanged : Bool) (s : EngineState) :
    Option EngineState :=
  if s.stack.isEmpty && s.attackLayer.isNone && priorityChanged
      && s.priority.all_passed && !s.chain.openFlag
      && (s.gameState == GamePhases.ActionPhase) then
    match s.priority.turn_player with
    | none => none
    | some tp =>
      match List.lookup tp s.heroStates with
      | none => none
      | some _ =>
        some { s with heroStates := updateAssoc s.heroStates tp
                        (fun hs => { hs with actionPoints := 0 }),
                      gameState := GamePhases.EndPhase }
  else some s

/-- `state_change_systems::trigger_end_phase` from `src/main.rs`. -/
def trigger_end_phase (priorityChanged : Bool) (s : EngineState) : EngineState :=
  if (s.gameState == GamePhases.ActionPhase)
      && (s.combatState == some CombatSteps.CloseStep) && s.stack.isEmpty
      && priorityChanged && s.priority.all_passed then
    { s with gameState := GamePhases.EndPhase, combatState := none }
  else s

/-- `state_change_systems::start_end_phase` from `src/main.rs`: its body
only prints, so the embedding is the identity. -/
def start_end_phase (_gameStateChanged : Bool) (s : EngineState) : EngineState := s

/-- `state_change_systems::end_end_phase` from `src/main.rs`. -/
def end_end_phase (s : EngineState) : Option EngineState :=
  if (s.gameState == GamePhases.EndPhase) && s.stack.isEmpty then
    match s.priority.turn_player with
    | none => none
    | some tp =>
      match List.lookup tp s.heroStates with
      | none => none
      | some _ =>
        some { s with heroStates := updateAssoc s.heroStates tp
                        (fun hs => { hs with resources := 0 }),
                      gameState := GamePhases.StartPhase }
  else some s

/-- `struct PlayCard` event from `src/main.rs`. -/
structure PlayCard where
  hero : Entity
  card : Entity
  target : Option Entity
deriving DecidableEq, Repr

/-- `struct PitchCard` event from `src/main.rs`. -/
structure PitchCard where
  hero : Entity
  card : Entity
deriving DecidableEq, Repr

/-- `struct DeclareBlocks` event from `src/main.rs`. -/
structure DeclareBlocks where
  hero : Entity
  blocks : List Entity
deriving DecidableEq, Repr

/-- `read_systems::read_card` from `src/main.rs`, processing one
`PlayCard` event; `none` models the `unwrap`s on the card and
target-name queries. -/
def read_card (ctx : Ctx) (ev : PlayCard) (s : EngineState) : Option EngineState :=
  if !s.priority.has_priority ev.hero then some s
  else
    match List.lookup ev.card ctx.playMeta with
    | none => none
    | some (card_type, hasAttack) =>
      if !card_type.is_playable then some s
      else
        let targetNamed : Option EngineState :=
          match ev.target with
          | some t => if ctx.named.contains t then some s else none
          | none => some s
        match targetNamed with
        | none => none
        | some _ =>
          if hasAttack && ev.target.isNone then some s
          else
            some { s with
              proposedEvent := some
                { target := ev.target, card := ev.card,
                  actor := ev.hero, attack := hasAttack },
              priority := s.priority.hold_priority }

/-- `read_systems::read_priority` from `src/main.rs`, processing one
`PassPriority` event (the event carries only the hero); `none` models
the `unwrap` on the player-name query. -/
def read_priority (ctx : Ctx) (hero : Entity) (s : EngineState) :
    Option EngineState :=
  if !s.priority.has_priority hero then some s
  else if !ctx.players.contains hero then none
  else some { s with priority := s.priority.pass_priority }

/-- `read_systems::read_pitch` from `src/main.rs`, processing one
`PitchCard` event; `none` models the `unwrap` on the card query and the
`expect` on the hero query. `hand.retain` is a filter, the pitch zone
`push_front` is cons, and the `u16` resource gain wraps. -/
def read_pitch (ctx : Ctx) (ev : PitchCard) (s : EngineState) :
    Option EngineState :=
  if !s.priority.has_priority ev.hero then some s
  else if s.proposedEvent.isNone then some s
  else
    match List.lookup ev.card ctx.pitchMeta with
    | none => none
    | some pv =>
      match List.lookup ev.hero s.heroStates with
      | none => none
      | some _ =>
        some { s with
          heroStates := updateAssoc s.heroStates ev.hero (fun hs =>
            { hs with hand := hs.hand.filter (fun c => c != ev.card),
                      pitch := ev.card :: hs.pitch,
                      resources := (hs.resources + pv) % u16Mod }),
          priority := s.priority.hold_priority }

/-- The validation loop of `read_systems::read_blocks`: every declared
card must resolve in the `(&CardName, Option<&Defense>)` query and carry a
`Defense`; `none` models the early `return` (not a panic). -/
def validateBlocks (ctx : Ctx) : List Entity → Option (List Entity)
  | [] => some []
  | c :: rest =>
    if !ctx.named.contains c then none
    else
      match List.lookup c ctx.defense with
      | none => none
      | some _ => (validateBlocks ctx rest).map (fun bs => c :: bs)

/-- `read_systems::read_blocks` from `src/main.rs`, processing one
`DeclareBlocks` event; `none` models the `expect` on the missing chain
link. -/
def read_blocks (ctx : Ctx) (ev : DeclareBlocks) (s : EngineState) :
    Option EngineState :=
  if !s.priority.is_blocking ev.hero then some s
  else
    match validateBlocks ctx ev.blocks with
    | none => some s
    | some bs =>
      match s.chain.links.getLast? with
      | none => none
      | some link =>
        some { s with chain := s.chain.setLast { link with blocks := bs },
                      priority := s.priority.pass_priority }

/-- The systems the game schedule runs on every tick (`main` in
`src/main.rs`); the Bool arguments carry the `is_changed()` edge
detections of the corresponding system. -/
inductive Sys where
  | evaluateCost
  | resolveStack
  | layerStep (attackLayerChanged : Bool)
  | attackStep (priorityChanged : Bool)
  | defendStep (priorityChanged : Bool)
  | reactionStep (priorityChanged : Bool)
  | damageStep (priorityChanged : Bool)
  | resolutionStep
  | linkStep (priorityChanged : Bool)
  | closeStep (priorityChanged : Bool)
  | startStartPhase (gameStateChanged : Bool)
  | endStartPhase
  | startActionPhase (gameStateChanged : Bool)
  | endActionPhase (priorityChanged : Bool)
  | triggerEndPhase (priorityChanged : Bool)
  | startEndPhase (gameStateChanged : Bool)
  | endEndPhase
deriving DecidableEq, Repr

/-- Dispatch one scheduled tick system; `none` is a panic. -/
def runSys (ctx : Ctx) : Sys → EngineState → Option EngineState
  | .evaluateCost => evaluate_cost ctx
  | .resolveStack => fun s => some (resolve_stack ctx s)
  | .layerStep b => fun s => some (trigger_layer_step b s)
  | .attackStep b => fun s => some (trigger_attack_step b ctx s)
  | .defendStep b => trigger_defend_step b ctx
  | .reactionStep b => fun s => some (trigger_reaction_step b s)
  | .damageStep b => trigger_damage_step b ctx
  | .resolutionStep => trigger_resolution_step
  | .linkStep b => fun s => some (trigger_link_step b s)
  | .closeStep b => fun s => some (trigger_close_step b s)
  | .startStartPhase b => fun s => some (start_start_phase b s)
  | .endStartPhase => fun s => some (end_start_phase s)
  | .startActionPhase b => start_action_phase b
  | .endActionPhase b => end_action_phase b
  | .triggerEndPhase b => fun s => some (trigger_end_phase b s)
  | .startEndPhase b => fun s => some (start_end_phase b s)
  | .endEndPhase => end_end_phase

/-- State class reached right after `evaluate_cost` stages an attack: the
attack sits in the layer, the proposal slot is empty again, the game holds
priority, the combat state still allows the Layer-step transition, and
the tracked participants are heroes (as `roll_for_first` guarantees). -/
def staged (s : EngineState) : Bool :=
  s.attackLayer.isSome
  && s.proposedEvent.isNone
  && s.priority.hold
  && ((s.combatState == none) || (s.combatState == some CombatSteps.LinkStep))
  && !(s.priority.holding ++ s.priority.passed).isEmpty
  && (s.priority.holding ++ s.priority.passed).all
      (fun e => (List.lookup e s.heroStates).isSome)

/-! Helper lemmas (shared). -/

theorem updateAssoc_cons_eq {α : Type} (a e : Entity) (b : α) (t : List (Entity × α))
    (f : α → α) (h : a = e) :
    updateAssoc ((a, b) :: t) e f = (a, f b) :: updateAssoc t e f := by
  simp [updateAssoc, h]

theorem updateAssoc_cons_ne {α : Type} (a e : Entity) (b : α) (t : List (Entity × α))
    (f : α → α) (h : ¬a = e) :
    updateAssoc ((a, b) :: t) e f = (a, b) :: updateAssoc t e f := by
  simp [updateAssoc, h]

theorem lookup_updateAssoc_isSome {α : Type} (l : List (Entity × α)) (e k : Entity)
    (f : α → α) :
    (List.lookup k (updateAssoc l e f)).isSome = (List.lookup k l).isSome := by
  induction l with
  | nil => rfl
  | cons kv t ih =>
    obtain ⟨a, b⟩ := kv
    by_cases hae : a = e
    · rw [updateAssoc_cons_eq a e b t f hae, List.lookup_cons, List.lookup_cons]
      by_cases hak : (k == a) = true <;> simp [hak, ih]
    · rw [updateAssoc_cons_ne a e b t f hae, List.lookup_cons, List.lookup_cons]
      by_cases hak : (k == a) = true <;> simp [hak, ih]

theorem lookup_updateAssoc_self {α : Type} (l : List (Entity × α)) (e : Entity)
    (f : α → α) :
    List.lookup e (updateAssoc l e f) = (List.lookup e l).map f := by
  induction l with
  | nil => rfl
  | cons kv t ih =>
    obtain ⟨a, b⟩ := kv
    by_cases hae : a = e
    · rw [updateAssoc_cons_eq a e b t f hae, List.lookup_cons, List.lookup_cons]
      have : (e == a) = true := by simp [hae]
      simp [this]
    · rw [updateAssoc_cons_ne a e b t f hae, List.lookup_cons, List.lookup_cons]
      have : (e == a) = false := by
        rw [beq_eq_false_iff_ne]
        exact fun h => hae h.symm
      simp [this, ih]

theorem passMove_hold (p : Priority) : p.passMove.hold = p.hold := by
  unfold Priority.passMove
  cases p.holding <;> rfl

theorem pass_priority_hold (p : Priority) : p.pass_priority.hold = p.hold := by
  have hd : p.pass_priority =
      if (p.passMove.passed.isEmpty && p.passMove.card_played) = true
      then p.passMove.reset else p.passMove := rfl
  rw [hd]
  split <;> exact passMove_hold p

theorem pass_priority_perm (p : Priority) :
    (p.pass_priority.holding ++ p.pass_priority.passed).Perm (p.holding ++ p.passed) := by
  unfold Priority.pass_priority
  cases hh : p.holding with
  | nil =>
    have hm : p.passMove = p := by unfold Priority.passMove; rw [hh]
    rw [hm]
    by_cases hc : (p.passed.isEmpty && p.card_played) = true
    · simp [hc, Priority.reset, hh]
    · simp [hc, hh]
  | cons h t =>
    have hm : p.passMove = { p with holding := t, passed := p.passed ++ [h] } := by
      unfold Priority.passMove; rw [hh]
    rw [hm]
    have hne : ((p.passed ++ [h]).isEmpty && p.card_played) = false := by
      simp
    simp only [hne, Bool.false_eq_true, if_false]
    have h1 : ((t ++ p.passed) ++ [h]).Perm (h :: (t ++ p.passed)) :=
      List.perm_append_singleton _ _
    rw [← List.append_assoc]
    exact h1

theorem turn_player_mem (p : Priority) (e : Entity)
    (h : p.turn_player = some e) : e ∈ p.holding ++ p.passed := by
  unfold Priority.turn_player at h
  cases hh : p.holding with
  | cons a t =>
    rw [hh] at h
    simp only [List.head?] at h
    cases h
    simp [hh]
  | nil =>
    rw [hh] at h
    simp only [List.head?] at h
    cases hp : p.passed with
    | nil => rw [hp] at h; cases h
    | cons b u =>
      rw [hp] at h
      simp only [List.head?] at h
      cases h
      simp [hh, hp]

/-! Claim C5. -/

/-- C5: `pass_priority` moves the head of holding (when non-empty) to the
back of passed; immediately after the move it performs a full `reset` if
and only if passed is then empty and `card_played` is true — a condition
that can only hold when holding (and passed) were already empty at the
time of the call. -/
theorem C5_pass_priority_move_then_conditional_reset (p : Priority) :
    (∀ h t, p.holding = h :: t →
        p.passMove = { p with holding := t, passed := p.passed ++ [h] })
    ∧ p.pass_priority =
        (if p.passMove.passed.isEmpty && p.passMove.card_played
         then p.passMove.reset else p.passMove)
    ∧ ((p.passMove.passed.isEmpty && p.passMove.card_played) = true →
        p.holding = [] ∧ p.passed = []) := by
  refine ⟨?_, rfl, ?_⟩
  · intro h t hh
    unfold Priority.passMove
    rw [hh]
  · intro hc
    rw [Bool.and_eq_true] at hc
    obtain ⟨hemp, _⟩ := hc
    unfold Priority.passMove at hemp
    cases hh : p.holding with
    | nil =>
      rw [hh] at hemp
      simp only [List.isEmpty_eq_true] at hemp
      exact ⟨rfl, hemp⟩
    | cons h t =>
      rw [hh] at hemp
      simp at hemp

/-- C5 witness: applying the theorem at a concrete tracker. -/
theorem C5_witness :
    ({ holding := [1, 2], passed := [], hold := false, blocks := false,
       card_played := false } : Priority).passMove
      = { holding := [2], passed := [1], hold := false, blocks := false,
          card_played := false } :=
  (C5_pass_priority_move_then_conditional_reset _).1 1 [2] rfl

/-! Claim C6. -/

/-- C6: every sequence of `pass_priority` calls leaves the multiset of
participants in holding together with passed unchanged: no participant is
created, duplicated or lost. -/
theorem C6_pass_priority_preserves_participants (p : Priority) (n : Nat) :
    ((((Priority.pass_priority)^[n] p).holding
        ++ ((Priority.pass_priority)^[n] p).passed : List Entity) : Multiset Entity)
      = ((p.holding ++ p.passed : List Entity) : Multiset Entity) := by
  rw [Multiset.coe_eq_coe]
  induction n with
  | zero => simp
  | succ k ih =>
    rw [Function.iterate_succ_apply']
    exact (pass_priority_perm _).trans ih

/-! Claim C7. -/

/-- C7: after `reset`, the new holding sequence is the old passed sequence
(in pass order) followed by the old holding sequence, and passed is empty. -/
theorem C7_reset_remerges_passed_before_holding (p : Priority) :
    p.reset.holding = p.passed ++ p.holding ∧ p.reset.passed = [] :=
  ⟨rfl, rfl⟩

/-! Claim C9. -/

/-- C9: when `evaluate_cost` rejects an action-category proposal because
the actor has zero action points, the proposal is dropped and priority is
released, and nothing else changes: hero resources and action points,
stack, attack layer, game phase and combat step keep their prior values
(only the "no action points" message is surfaced). -/
theorem C9_zero_action_points_frame (ctx : Ctx) (s : EngineState)
    (ev : GameEvent) (ct : CardType) (c : Nat) (ph : Entity) (hs : HeroState)
    (hev : s.proposedEvent = some ev)
    (hcost : List.lookup ev.card ctx.cost = some (ct, c))
    (hph : s.priority.priority_hero = some ph)
    (hhs : List.lookup ph s.heroStates = some hs)
    (hact : ct.is_action = true)
    (hap : hs.actionPoints = 0) :
    evaluate_cost ctx s = some
      { s with proposedEvent := none,
               priority := s.priority.release_priority,
               log := s.log ++ [Msg.noActionPoints] } := by
  simp only [evaluate_cost, hev, hcost, hph, hhs, hact, hap]
  simp

/-- Concrete admission context for the C9 witness. -/
def exC9ctx : Ctx :=
  { cost := [(10, (CardType.Action, 1))], playMeta := [], pitchMeta := [],
    attackPower := [], defense := [], entities := [], heroEntities := [],
    subtyped := [], named := [], players := [] }

/-- Concrete engine state for the C9 witness: hero 1 proposes an action
with zero action points remaining. -/
def exC9state : EngineState :=
  { priority := { holding := [1], passed := [2], hold := true, blocks := false,
                  card_played := false },
    stack := [], attackLayer := none,
    proposedEvent := some { target := none, card := 10, actor := 1, attack := false },
    combatState := none, gameState := GamePhases.ActionPhase,
    chain := { links := [], openFlag := false },
    heroStates := [(1, { resources := 2, actionPoints := 0, hand := [], pitch := [] })],
    healths := [], log := [] }

/-- C9 witness: the theorem applied at a concrete rejected proposal. -/
theorem C9_witness :
    evaluate_cost exC9ctx exC9state = some
      { exC9state with proposedEvent := none,
                       priority := exC9state.priority.release_priority,
                       log := [Msg.noActionPoints] } :=
  C9_zero_action_points_frame exC9ctx exC9state _ CardType.Action 1 1 _
    rfl rfl rfl rfl rfl rfl

/-! Claim C3. -/

/-- Concrete admission context for C3: card 10 is a 3-cost action. -/
def exC3ctx : Ctx :=
  { cost := [(10, (CardType.Action, 3))], playMeta := [], pitchMeta := [],
    attackPower := [], defense := [], entities := [], heroEntities := [],
    subtyped := [], named := [], players := [] }

/-- Concrete proposed event for C3. -/
def exC3event : GameEvent := { target := none, card := 10, actor := 1, attack := false }

/-- Concrete engine state for C3: hero 1 proposes the 3-cost action with
only 1 resource available. -/
def exC3state : EngineState :=
  { priority := { holding := [1], passed := [], hold := true, blocks := false,
                  card_played := false },
    stack := [], attackLayer := none,
    proposedEvent := some exC3event,
    combatState := none, gameState := GamePhases.ActionPhase,
    chain := { links := [], openFlag := false },
    heroStates := [(1, { resources := 1, actionPoints := 1, hand := [], pitch := [] })],
    healths := [], log := [] }

/-- C3 counterexample: at a concrete insufficient-resources rejection the
proposed event is NOT discarded — it is still queued after the call, and
running `evaluate_cost` again on the result re-evaluates the very same
intent (rejecting it again, surfacing the shortfall a second time),
contradicting "the rejection is terminal for that intent". -/
theorem C3_counterexample_proposal_retained :
    (evaluate_cost exC3ctx exC3state).map (fun t => t.proposedEvent)
      = some (some exC3event)
    ∧ ((evaluate_cost exC3ctx exC3state).bind (fun t => evaluate_cost exC3ctx t)).map
        (fun t => t.log)
      = some [Msg.notEnoughResources 2, Msg.notEnoughResources 2] := by
  decide

/-- C3 amended: when `evaluate_cost` rejects a proposal because resources
are below the card's cost, no resources or action points are deducted,
priority is released and the shortfall (cost minus available) is
surfaced; but the proposed event is retained — the same intent is
re-evaluated on later ticks (so the actor can pitch to meet the cost)
rather than being discarded. -/
theorem C3_insufficient_resources_rejection (ctx : Ctx) (s : EngineState)
    (ev : GameEvent) (ct : CardType) (c : Nat) (ph : Entity) (hs : HeroState)
    (hev : s.proposedEvent = some ev)
    (hcost : List.lookup ev.card ctx.cost = some (ct, c))
    (hph : s.priority.priority_hero = some ph)
    (hhs : List.lookup ph s.heroStates = some hs)
    (hnap : ct.is_action = true → hs.actionPoints ≠ 0)
    (hres : hs.resources < c) :
    evaluate_cost ctx s = some
      { s with priority := s.priority.release_priority,
               log := s.log ++ [Msg.notEnoughResources (c - hs.resources)] } := by
  have hif : (ct.is_action && (hs.actionPoints == 0)) = false := by
    cases hia : ct.is_action
    · simp
    · have : (hs.actionPoints == 0) = false := by
        rw [beq_eq_false_iff_ne]
        exact hnap hia
      simp [this]
  simp only [evaluate_cost, hev, hcost, hph, hhs, hif]
  simp [hres]

/-- C3 witness: the amended theorem applied at the concrete state of the
counterexample. -/
theorem C3_witness :
    evaluate_cost exC3ctx exC3state = some
      { exC3state with priority := exC3state.priority.release_priority,
                       log := [Msg.notEnoughResources 2] } :=
  C3_insufficient_resources_rejection exC3ctx exC3state exC3event
    CardType.Action 3 1 _ rfl rfl rfl rfl (fun _ => by decide) (by decide)

/-! Claim C1. -/

/-- Concrete admission context for C1: card 10 is a 1-cost action, with
and without the attack subtype. -/
def exC1ctx : Ctx :=
  { cost := [(10, (CardType.Action, 1))], playMeta := [], pitchMeta := [],
    attackPower := [], defense := [], entities := [], heroEntities := [],
    subtyped := [], named := [], players := [] }

/-- Concrete state for C1, exactly the claim's scenario: hero 1 plays a
1-cost non-attack action with 2 available resources and 1 action point. -/
def exC1state : EngineState :=
  { priority := { holding := [1], passed := [2], hold := true, blocks := false,
                  card_played := false },
    stack := [], attackLayer := none,
    proposedEvent := some { target := none, card := 10, actor := 1, attack := false },
    combatState := none, gameState := GamePhases.ActionPhase,
    chain := { links := [], openFlag := false },
    heroStates := [(1, { resources := 2, actionPoints := 1, hand := [], pitch := [] })],
    healths := [], log := [] }

/-- The same scenario with the attack flag set (and a target). -/
def exC1attackEvent : GameEvent := { target := some 2, card := 10, actor := 1, attack := true }

/-- C1 (code bug): on the non-attack admission path the cost is payable
(the identical attack-flagged proposal is admitted and staged, second
conjunct), yet the run panics (`none`): after `proposed_event.0.take()`
at line 646 the non-attack branch at line 651 calls
`proposed_event.0.take().unwrap()` on the now-empty Option, so the event
is never pushed onto the ResolutionStack as the spec requires. -/
theorem C1_nonattack_admission_panics :
    evaluate_cost exC1ctx exC1state = none
    ∧ (evaluate_cost exC1ctx
          { exC1state with proposedEvent := some exC1attackEvent }).map
        (fun t => (t.attackLayer, t.stack, t.priority.hold, t.priority.card_played))
      = some (some exC1attackEvent, [], true, true) := by
  decide

/-! Claim C4. -/

/-- C4: under the Layer-to-Attack guard (combat state LayerStep, priority
just changed, all passed), `trigger_attack_step` produces exactly one of
two outcomes and never crashes (the embedding is a total function): if the
staged attack is absent, has no target, or the target no longer resolves,
the combat state ends at CloseStep and the chain is untouched; otherwise
exactly one new chain link recording target, attacker and attack is
appended and priority is reset. -/
theorem C4_attack_step_exactly_one_outcome (ctx : Ctx) (s : EngineState)
    (hcs : s.combatState = some CombatSteps.LayerStep)
    (hap : s.priority.all_passed = true) :
    (s.attackLayer = none →
        (trigger_attack_step true ctx s).combatState = some CombatSteps.CloseStep
        ∧ (trigger_attack_step true ctx s).chain = s.chain)
    ∧ (∀ ev, s.attackLayer = some ev → ev.target = none →
        (trigger_attack_step true ctx s).combatState = some CombatSteps.CloseStep
        ∧ (trigger_attack_step true ctx s).chain = s.chain)
    ∧ (∀ ev t, s.attackLayer = some ev → ev.target = some t →
        t ∉ ctx.entities →
        (trigger_attack_step true ctx s).combatState = some CombatSteps.CloseStep
        ∧ (trigger_attack_step true ctx s).chain = s.chain)
    ∧ (∀ ev t, s.attackLayer = some ev → ev.target = some t →
        t ∈ ctx.entities →
        (trigger_attack_step true ctx s).chain.links
            = s.chain.links ++ [ChainLink.mkAttack t ev.actor ev.card]
        ∧ (trigger_attack_step true ctx s).chain.openFlag = true
        ∧ (trigger_attack_step true ctx s).priority = s.priority.reset
        ∧ (trigger_attack_step true ctx s).combatState = some CombatSteps.AttackStep) := by
  refine ⟨?_, ?_, ?_, ?_⟩
  · intro hal
    constructor <;> simp [trigger_attack_step, hcs, hap, hal]
  · intro ev hal ht
    constructor <;> simp [trigger_attack_step, hcs, hap, hal, ht]
  · intro ev t hal ht hct
    constructor <;> simp [trigger_attack_step, hcs, hap, hal, ht, hct]
  · intro ev t hal ht hct
    refine ⟨?_, ?_, ?_, ?_⟩ <;>
      simp [trigger_attack_step, hcs, hap, hal, ht, hct, Chain.add_chain_link]

/-- Concrete context for the C4 witness: target 2 exists. -/
def exC4ctx : Ctx :=
  { cost := [], playMeta := [], pitchMeta := [], attackPower := [], defense := [],
    entities := [1, 2, 20], heroEntities := [], subtyped := [], named := [],
    players := [] }

/-- Concrete staged attack for the C4 witness. -/
def exC4event : GameEvent := { target := some 2, card := 20, actor := 1, attack := true }

/-- Concrete state for the C4 witness: LayerStep with everyone passed and
the attack staged. -/
def exC4state : EngineState :=
  { priority := { holding := [], passed := [1, 2], hold := false, blocks := false,
                  card_played := true },
    stack := [], attackLayer := some exC4event,
    proposedEvent := none, combatState := some CombatSteps.LayerStep,
    gameState := GamePhases.ActionPhase,
    chain := { links := [], openFlag := false },
    heroStates := [], healths := [], log := [] }

/-- C4 witness: the resolvable-target branch at a concrete input. -/
theorem C4_witness :
    (trigger_attack_step true exC4ctx exC4state).chain.links
        = [ChainLink.mkAttack 2 1 20]
    ∧ (trigger_attack_step true exC4ctx exC4state).chain.openFlag = true
    ∧ (trigger_attack_step true exC4ctx exC4state).priority
        = exC4state.priority.reset
    ∧ (trigger_attack_step true exC4ctx exC4state).combatState
        = some CombatSteps.AttackStep :=
  (C4_attack_step_exactly_one_outcome exC4ctx exC4state rfl rfl).2.2.2
    exC4event 2 rfl rfl (by decide)

/-! Claims C2 and C10: the Damage step. -/

/-- Plain (unwrapped) sum of the defense values found for a list of
entities — the quantity the spec describes as "Σ defense". -/
def defSum (ctx : Ctx) (l : List Entity) : Nat :=
  (l.map (fun b => (List.lookup b ctx.defense).getD 0)).sum

theorem foldl_addDefense (ctx : Ctx) (l : List Entity) (acc : Nat)
    (h : acc + defSum ctx l < u16Mod) :
    l.foldl (addDefense ctx) acc = acc + defSum ctx l := by
  induction l generalizing acc with
  | nil => simp [defSum]
  | cons b t ih =>
    rw [List.foldl_cons]
    have hgetd : defSum ctx (b :: t) = (List.lookup b ctx.defense).getD 0 + defSum ctx t := by
      simp [defSum]
    rw [hgetd] at h
    have hstep : addDefense ctx acc b = acc + (List.lookup b ctx.defense).getD 0 := by
      unfold addDefense
      cases hb : List.lookup b ctx.defense with
      | none => simp
      | some d =>
        simp only [Option.getD_some]
        have hlt : acc + d < u16Mod := by
          rw [hb] at h
          simp only [Option.getD_some] at h
          omega
        exact Nat.mod_eq_of_lt hlt
    rw [hstep, ih (acc + (List.lookup b ctx.defense).getD 0) (by omega), hgetd]
    omega

theorem totalDefense_eq_defSum (ctx : Ctx) (link : ChainLink)
    (h : defSum ctx link.blocks + defSum ctx link.defenseReactions < u16Mod) :
    totalDefense ctx link = defSum ctx link.blocks + defSum ctx link.defenseReactions := by
  unfold totalDefense
  rw [foldl_addDefense ctx link.blocks 0 (by omega)]
  rw [foldl_addDefense ctx link.defenseReactions (0 + defSum ctx link.blocks) (by omega)]
  omega

/-- C2: at the Reaction-to-Damage transition, total defense is the sum of
the block defenses plus the sum of the defense-reaction defenses; the
link's hit flag ends up true exactly when attack power is at least that
total; when it is, exactly `attack - total` is subtracted from the
target's health, and when attack power is below the total the target's
health map is untouched. Bounds (`u16` values, no underflow) reflect the
source's u16 arithmetic; the underflowing case is claim C10's. -/
theorem C2_damage_step_hit_and_damage (ctx : Ctx) (s : EngineState)
    (link : ChainLink) (attack hp : Nat)
    (hcs : s.combatState = some CombatSteps.ReactionStep)
    (hap : s.priority.all_passed = true)
    (hst : s.stack = [])
    (hlink : s.chain.links.getLast? = some link)
    (hhit : link.hit = false)
    (hatk : List.lookup link.attack ctx.attackPower = some attack)
    (hbound : defSum ctx link.blocks + defSum ctx link.defenseReactions < u16Mod)
    (hh : List.lookup link.target s.healths = some hp)
    (hh16 : hp < u16Mod)
    (hnu : attack - (defSum ctx link.blocks + defSum ctx link.defenseReactions) ≤ hp) :
    totalDefense ctx link = defSum ctx link.blocks + defSum ctx link.defenseReactions
    ∧ ∃ s2, trigger_damage_step true ctx s = some s2
        ∧ s2.chain.links.getLast? = some { link with
            hit := decide (defSum ctx link.blocks + defSum ctx link.defenseReactions
                            ≤ attack) }
        ∧ (defSum ctx link.blocks + defSum ctx link.defenseReactions ≤ attack →
            List.lookup link.target s2.healths
              = some (hp - (attack
                  - (defSum ctx link.blocks + defSum ctx link.defenseReactions))))
        ∧ (attack < defSum ctx link.blocks + defSum ctx link.defenseReactions →
            s2.healths = s.healths) := by
  have hD := totalDefense_eq_defSum ctx link hbound
  refine ⟨hD, ?_⟩
  have hguard : ((s.combatState == some CombatSteps.ReactionStep) && true
      && s.priority.all_passed && s.stack.isEmpty) = true := by
    simp [hcs, hap, hst]
  by_cases hle : defSum ctx link.blocks + defSum ctx link.defenseReactions ≤ attack
  · have hle2 : totalDefense ctx link ≤ attack := by rw [hD]; exact hle
    have hrun : trigger_damage_step true ctx s = some { s with
        priority := s.priority.hold_priority,
        combatState := some CombatSteps.DamageStep,
        chain := s.chain.setLast { link with hit := true },
        healths := updateAssoc s.healths link.target
          (fun hv => healthSub hv (attack - totalDefense ctx link)) } := by
      simp only [trigger_damage_step, hlink, hatk, hh]
      rw [if_pos hguard, if_pos hle2]
    refine ⟨_, hrun, ?_, ?_, ?_⟩
    · simp only [Chain.setLast]
      rw [List.getLast?_concat]
      simp [hle]
    · intro _
      rw [lookup_updateAssoc_self, hh]
      have heq : healthSub hp (attack - totalDefense ctx link)
          = hp - (attack - (defSum ctx link.blocks + defSum ctx link.defenseReactions)) := by
        rw [hD]
        unfold healthSub u16Mod
        unfold u16Mod at hh16
        omega
      simp [heq]
    · intro hlt
      omega
  · have hlt2 : ¬totalDefense ctx link ≤ attack := by rw [hD]; exact hle
    have hrun : trigger_damage_step true ctx s = some { s with
        priority := s.priority.hold_priority,
        combatState := some CombatSteps.DamageStep } := by
      simp only [trigger_damage_step, hlink, hatk]
      rw [if_pos hguard, if_neg hlt2]
    refine ⟨_, hrun, ?_, ?_, ?_⟩
    · rw [show (decide (defSum ctx link.blocks + defSum ctx link.defenseReactions
          ≤ attack)) = false by simp [hle]]
      have hlk : ({ link with hit := false } : ChainLink) = link := by
        rw [← hhit]
      rw [hlk]
      exact hlink
    · intro hcon
      exact absurd hcon hle
    · intro _
      rfl

/-- Concrete context for the C2 witness: attack card 20 has power 3,
block card 30 has defense 2. -/
def exC2ctx : Ctx :=
  { cost := [], playMeta := [], pitchMeta := [], attackPower := [(20, 3)],
    defense := [(30, 2)], entities := [], heroEntities := [], subtyped := [],
    named := [], players := [] }

/-- Concrete chain link for the C2 witness: target 2, one block. -/
def exC2link : ChainLink := { ChainLink.mkAttack 2 1 20 with blocks := [30] }

/-- Concrete Reaction-step state for the C2 witness. -/
def exC2state : EngineState :=
  { priority := { holding := [], passed := [1, 2], hold := false, blocks := false,
                  card_played := false },
    stack := [], attackLayer := none, proposedEvent := none,
    combatState := some CombatSteps.ReactionStep,
    gameState := GamePhases.ActionPhase,
    chain := { links := [exC2link], openFlag := true },
    heroStates := [], healths := [(2, 40)], log := [] }

/-- C2 witness: 3 attack against 2 total defense hits for exactly 1. -/
theorem C2_witness :
    totalDefense exC2ctx exC2link = 2
    ∧ (trigger_damage_step true exC2ctx exC2state).map
        (fun t => (t.chain.links.getLast?, List.lookup exC2link.target t.healths))
      = some (some { exC2link with hit := true }, some 39) := by
  obtain ⟨hD, s2, hrun, hlast, hdmg, _⟩ := C2_damage_step_hit_and_damage
    exC2ctx exC2state exC2link 3 40 rfl rfl rfl rfl rfl rfl (by decide) rfl
    (by decide) (by decide)
  refine ⟨by decide, ?_⟩
  rw [hrun]
  simp only [Option.map]
  rw [hlast, hdmg (by decide)]
  decide

/-- C10: damage application does not clamp at zero health. When the
computed damage (attack power minus total defense) exceeds the target's
current health, the `u16` subtraction `health.0 -= dmg` underflows —
wrapping to `u16Mod - (dmg - health)` under release semantics (debug
builds panic at the same spot) — a value that is never zero and is
strictly above the old health, instead of a zero or negative-health
outcome. -/
theorem C10_damage_underflow_no_clamp (ctx : Ctx) (s : EngineState)
    (link : ChainLink) (attack hp : Nat)
    (hcs : s.combatState = some CombatSteps.ReactionStep)
    (hap : s.priority.all_passed = true)
    (hst : s.stack = [])
    (hlink : s.chain.links.getLast? = some link)
    (hatk : List.lookup link.attack ctx.attackPower = some attack)
    (hD : totalDefense ctx link ≤ attack)
    (hh : List.lookup link.target s.healths = some hp)
    (hund : hp < attack - totalDefense ctx link)
    (hatk16 : attack < u16Mod) :
    ∃ s2, trigger_damage_step true ctx s = some s2
      ∧ List.lookup link.target s2.healths
          = some (u16Mod - (attack - totalDefense ctx link - hp))
      ∧ u16Mod - (attack - totalDefense ctx link - hp) ≠ 0
      ∧ hp < u16Mod - (attack - totalDefense ctx link - hp) := by
  have hguard : ((s.combatState == some CombatSteps.ReactionStep) && true
      && s.priority.all_passed && s.stack.isEmpty) = true := by
    simp [hcs, hap, hst]
  have hrun : trigger_damage_step true ctx s = some { s with
      priority := s.priority.hold_priority,
      combatState := some CombatSteps.DamageStep,
      chain := s.chain.setLast { link with hit := true },
      healths := updateAssoc s.healths link.target
        (fun hv => healthSub hv (attack - totalDefense ctx link)) } := by
    simp only [trigger_damage_step, hlink, hatk, hh]
    rw [if_pos hguard, if_pos hD]
  refine ⟨_, hrun, ?_, ?_, ?_⟩
  · rw [lookup_updateAssoc_self, hh]
    have heq : healthSub hp (attack - totalDefense ctx link)
        = u16Mod - (attack - totalDefense ctx link - hp) := by
      unfold healthSub u16Mod
      unfold u16Mod at hatk16
      omega
    simp [heq]
  · unfold u16Mod
    unfold u16Mod at hatk16
    omega
  · unfold u16Mod
    unfold u16Mod at hatk16
    omega

/-- Concrete context for the C10 witness: attack power 50 against the
same 2-defense block, target health 40. -/
def exC10ctx : Ctx :=
  { cost := [], playMeta := [], pitchMeta := [], attackPower := [(20, 50)],
    defense := [(30, 2)], entities := [], heroEntities := [], subtyped := [],
    named := [], players := [] }

/-- Concrete chain link for the C10 witness. -/
def exC10link : ChainLink := { ChainLink.mkAttack 2 1 20 with blocks := [30] }

/-- Concrete Reaction-step state for the C10 witness. -/
def exC10state : EngineState :=
  { priority := { holding := [], passed := [1, 2], hold := false, blocks := false,
                  card_played := false },
    stack := [], attackLayer := none, proposedEvent := none,
    combatState := some CombatSteps.ReactionStep,
    gameState := GamePhases.ActionPhase,
    chain := { links := [exC10link], openFlag := true },
    heroStates := [], healths := [(2, 40)], log := [] }

/-- C10 witness: 48 damage against 40 health wraps to 65528 rather than
clamping at zero. -/
theorem C10_witness :
    (trigger_damage_step true exC10ctx exC10state).map
        (fun t => List.lookup exC10link.target t.healths)
      = some (some 65528)
    ∧ (65528 : Nat) ≠ 0 ∧ (40 : Nat) < 65528 := by
  obtain ⟨s2, hrun, hv, hnz, hgt⟩ := C10_damage_underflow_no_clamp
    exC10ctx exC10state exC10link 50 40 rfl rfl rfl rfl rfl (by decide) rfl
    (by decide) (by decide)
  refine ⟨?_, by decide, by decide⟩
  rw [hrun]
  simp only [Option.map]
  rw [hv]
  decide

/-! Claim C8: helper lemmas. -/

theorem read_card_keeps_hold (ctx : Ctx) (ev : PlayCard) (s s4 : EngineState)
    (hh : s.priority.hold = true) (h : read_card ctx ev s = some s4) :
    s4.priority.hold = true := by
  simp only [read_card] at h
  repeat' split at h
  all_goals first
    | (cases h; exact hh)
    | (cases h; rfl)
    | simp_all

theorem read_priority_keeps_hold (ctx : Ctx) (hero : Entity) (s s4 : EngineState)
    (hh : s.priority.hold = true) (h : read_priority ctx hero s = some s4) :
    s4.priority.hold = true := by
  simp only [read_priority] at h
  repeat' split at h
  all_goals first
    | (cases h; exact hh)
    | (cases h; exact (pass_priority_hold s.priority).trans hh)
    | simp_all

theorem read_pitch_keeps_hold (ctx : Ctx) (ev : PitchCard) (s s4 : EngineState)
    (hh : s.priority.hold = true) (h : read_pitch ctx ev s = some s4) :
    s4.priority.hold = true := by
  simp only [read_pitch] at h
  repeat' split at h
  all_goals first
    | (cases h; exact hh)
    | (cases h; rfl)
    | simp_all

theorem read_blocks_keeps_hold (ctx : Ctx) (ev : DeclareBlocks) (s s4 : EngineState)
    (hh : s.priority.hold = true) (h : read_blocks ctx ev s = some s4) :
    s4.priority.hold = true := by
  simp only [read_blocks] at h
  repeat' split at h
  all_goals first
    | (cases h; exact hh)
    | (cases h; exact (pass_priority_hold s.priority).trans hh)
    | simp_all

theorem turn_player_isSome (p : Priority)
    (h : (p.holding ++ p.passed).isEmpty = false) :
    ∃ e, p.turn_player = some e := by
  unfold Priority.turn_player
  cases hh : p.holding with
  | cons a t => exact ⟨a, rfl⟩
  | nil =>
    cases hp : p.passed with
    | cons b u => exact ⟨b, by simp⟩
    | nil => rw [hh, hp] at h; simp at h

/-- Frame lemma for `staged`: replacing the priority zipper by one with
the same hold flag and the same participants, updating a hero entry in
place, and changing the game phase, all preserve `staged`. -/
theorem staged_frame (s : EngineState) (pr : Priority) (tp : Entity)
    (f : HeroState → HeroState) (g : GamePhases)
    (hhold : pr.hold = s.priority.hold)
    (hmem : ∀ e, e ∈ pr.holding ++ pr.passed → e ∈ s.priority.holding ++ s.priority.passed)
    (hne : (pr.holding ++ pr.passed).isEmpty = false)
    (hst : staged s = true) :
    staged { s with priority := pr,
                    heroStates := updateAssoc s.heroStates tp f,
                    gameState := g } = true := by
  simp only [staged, Bool.and_eq_true] at hst ⊢
  obtain ⟨⟨⟨⟨⟨hAL, hPE⟩, hHold⟩, hCS⟩, _⟩, hall⟩ := hst
  refine ⟨⟨⟨⟨⟨hAL, hPE⟩, ?_⟩, hCS⟩, ?_⟩, ?_⟩
  · show pr.hold = true
    rw [hhold]
    exact hHold
  · show (!(pr.holding ++ pr.passed).isEmpty) = true
    simp [hne]
  · simp only [List.all_eq_true] at hall ⊢
    intro e he
    show (List.lookup e (updateAssoc s.heroStates tp f)).isSome = true
    rw [lookup_updateAssoc_isSome]
    exact hall e (hmem e he)

theorem start_action_phase_staged (s : EngineState) (b : Bool)
    (hst : staged s = true) :
    ∃ s2, start_action_phase b s = some s2 ∧ staged s2 = true := by
  have hst' := hst
  simp only [staged, Bool.and_eq_true] at hst'
  obtain ⟨⟨⟨⟨⟨hAL, hPE⟩, hHold⟩, hCS⟩, hNE⟩, hall⟩ := hst'
  have hNE' : (s.priority.holding ++ s.priority.passed).isEmpty = false := by
    cases hx : (s.priority.holding ++ s.priority.passed).isEmpty
    · rfl
    · rw [hx] at hNE; simp at hNE
  have hne2 : (s.priority.passed ++ s.priority.holding).isEmpty = false := by
    cases hx : (s.priority.passed ++ s.priority.holding).isEmpty
    · rfl
    · exfalso
      have h0 : s.priority.passed ++ s.priority.holding = [] := by
        cases hy : s.priority.passed ++ s.priority.holding with
        | nil => rfl
        | cons z zs => rw [hy] at hx; simp at hx
      rw [List.append_eq_nil] at h0
      rw [h0.1, h0.2] at hNE'
      simp at hNE'
  unfold start_action_phase
  split
  case isFalse => exact ⟨s, rfl, hst⟩
  case isTrue =>
    cases hr : (s.priority.passed ++ s.priority.holding).rotate 1 with
    | nil =>
      exfalso
      have hlen := congrArg List.length hr
      rw [List.length_rotate] at hlen
      cases hpp : s.priority.passed ++ s.priority.holding with
      | nil => rw [hpp] at hne2; simp at hne2
      | cons x xs => rw [hpp] at hlen; simp at hlen
    | cons a t =>
      have hmem_a : a ∈ s.priority.holding ++ s.priority.passed := by
        have h1 : a ∈ (s.priority.passed ++ s.priority.holding).rotate 1 := by
          rw [hr]; exact List.mem_cons_self a t
        have h2 := List.mem_rotate.mp h1
        rw [List.mem_append] at h2 ⊢
        exact h2.symm
      have hsome : (List.lookup a s.heroStates).isSome = true :=
        List.all_eq_true.mp hall a hmem_a
      have hcyc : s.priority.cycle_priority = some
          { s.priority.reset with holding := a :: t } := by
        unfold Priority.cycle_priority
        have hc : (s.priority.reset).holding.isEmpty = false := hne2
        simp only [hc, Bool.false_eq_true, if_false]
        rw [show (s.priority.reset).holding.rotate 1
            = (s.priority.passed ++ s.priority.holding).rotate 1 from rfl, hr]
      simp only [hcyc]
      have htp : ({ s.priority.reset with holding := a :: t } : Priority).turn_player
          = some a := rfl
      simp only [htp]
      cases hlk : List.lookup a s.heroStates with
      | none => rw [hlk] at hsome; simp at hsome
      | some hsx =>
        simp only [hlk]
        refine ⟨_, rfl, ?_⟩
        refine staged_frame s { s.priority.reset with holding := a :: t } a
          (fun hs => { hs with actionPoints := 1 }) s.gameState rfl ?_ (by simp) hst
        intro e he
        have he2 : e ∈ (a :: t) := by
          simpa [Priority.reset] using he
        have h1 : e ∈ (s.priority.passed ++ s.priority.holding).rotate 1 := by
          rw [hr]; exact he2
        have h2 := List.mem_rotate.mp h1
        rw [List.mem_append] at h2 ⊢
        exact h2.symm

theorem end_end_phase_staged (s : EngineState) (hst : staged s = true) :
    ∃ s2, end_end_phase s = some s2 ∧ staged s2 = true := by
  have hst' := hst
  simp only [staged, Bool.and_eq_true] at hst'
  obtain ⟨⟨⟨⟨⟨hAL, hPE⟩, hHold⟩, hCS⟩, hNE⟩, hall⟩ := hst'
  have hNE' : (s.priority.holding ++ s.priority.passed).isEmpty = false := by
    cases hx : (s.priority.holding ++ s.priority.passed).isEmpty
    · rfl
    · rw [hx] at hNE; simp at hNE
  unfold end_end_phase
  split
  case isFalse => exact ⟨s, rfl, hst⟩
  case isTrue =>
    obtain ⟨tp, htp⟩ := turn_player_isSome s.priority hNE'
    simp only [htp]
    have hmem : tp ∈ s.priority.holding ++ s.priority.passed :=
      turn_player_mem s.priority tp htp
    have hsome : (List.lookup tp s.heroStates).isSome = true :=
      List.all_eq_true.mp hall tp hmem
    cases hlk : List.lookup tp s.heroStates with
    | none => rw [hlk] at hsome; simp at hsome
    | some hsx =>
      simp only [hlk]
      refine ⟨_, rfl, ?_⟩
      exact staged_frame s s.priority tp (fun hs => { hs with resources := 0 })
        GamePhases.StartPhase rfl (fun e he => he) hNE' hst

/-- C8: from the moment `evaluate_cost` routes an attack into the attack
layer, the game-hold flag is true (first conjunct: the admission run lands
in the `staged` state class, whose definition includes `hold = true`). In
any `staged` state no participant has priority (`someone_has_priority` is
false, so the driver loop forwards no intents), every scheduled tick
system other than a firing `trigger_layer_step` preserves `staged` — in
particular the hold flag — and a firing `trigger_layer_step` sets the
combat state to LayerStep and releases the hold; the four intent-reading
systems never clear the hold either. -/
theorem C8_attack_staging_holds_priority_until_layer_step (ctx : Ctx)
    (s : EngineState) :
    (∀ ev ct c ph hs,
        s.proposedEvent = some ev → ev.attack = true →
        List.lookup ev.card ctx.cost = some (ct, c) →
        s.priority.priority_hero = some ph →
        List.lookup ph s.heroStates = some hs →
        (ct.is_action = true → hs.actionPoints ≠ 0) →
        c ≤ hs.resources →
        ((s.combatState == none) || (s.combatState == some CombatSteps.LinkStep)) = true →
        (!(s.priority.holding ++ s.priority.passed).isEmpty) = true →
        ((s.priority.holding ++ s.priority.passed).all
            (fun e => (List.lookup e s.heroStates).isSome)) = true →
        ∃ s1, evaluate_cost ctx s = some s1 ∧ staged s1 = true
          ∧ s1.priority.hold = true)
    ∧ (staged s = true →
        s.priority.someone_has_priority = false
        ∧ (∀ sys : Sys, sys ≠ Sys.layerStep true →
            ∃ s2, runSys ctx sys s = some s2 ∧ staged s2 = true)
        ∧ (∃ s3, runSys ctx (Sys.layerStep true) s = some s3
            ∧ s3.combatState = some CombatSteps.LayerStep
            ∧ s3.priority.hold = false)
        ∧ (∀ ev s4, read_card ctx ev s = some s4 → s4.priority.hold = true)
        ∧ (∀ hero s4, read_priority ctx hero s = some s4 → s4.priority.hold = true)
        ∧ (∀ ev s4, read_pitch ctx ev s = some s4 → s4.priority.hold = true)
        ∧ (∀ ev s4, read_blocks ctx ev s = some s4 → s4.priority.hold = true)) := by
  constructor
  · intro ev ct c ph hs hev hattack hcost hph hhs hnap hres hcombat hne hall
    have hif : (ct.is_action && (hs.actionPoints == 0)) = false := by
      cases hia : ct.is_action
      · simp
      · have : (hs.actionPoints == 0) = false := by
          rw [beq_eq_false_iff_ne]
          exact hnap hia
        simp [this]
    have hres2 : ¬hs.resources < c := by omega
    have hrun : evaluate_cost ctx s = some
        { s with
          heroStates := updateAssoc s.heroStates ph (fun _ =>
            { hs with resources := hs.resources - c,
                      actionPoints := if ct.is_action then hs.actionPoints - 1
                                      else hs.actionPoints }),
          proposedEvent := none,
          attackLayer := some ev,
          priority := { s.priority.hold_priority with card_played := true } } := by
      simp only [evaluate_cost, hev, hcost, hph, hhs, hif]
      rw [if_neg hres2]
      simp [hattack]
    refine ⟨_, hrun, ?_, rfl⟩
    simp only [staged, Bool.and_eq_true]
    refine ⟨⟨⟨⟨⟨rfl, rfl⟩, rfl⟩, hcombat⟩, hne⟩, ?_⟩
    simp only [List.all_eq_true] at hall ⊢
    intro e he
    show (List.lookup e (updateAssoc s.heroStates ph _)).isSome = true
    rw [lookup_updateAssoc_isSome]
    exact hall e he
  · intro hst
    have hst' := hst
    simp only [staged, Bool.and_eq_true] at hst'
    obtain ⟨⟨⟨⟨⟨hAL, hPE⟩, hHold⟩, hCS⟩, hNE⟩, hall⟩ := hst'
    have hPE' : s.proposedEvent = none := Option.isNone_iff_eq_none.mp hPE
    have hALex : ∃ ev, s.attackLayer = some ev := Option.isSome_iff_exists.mp hAL
    have hAP0 : s.priority.all_passed = false := by
      simp [Priority.all_passed, hHold]
    have hCSor : s.combatState = none ∨ s.combatState = some CombatSteps.LinkStep := by
      have h := hCS
      simp at h
      exact h
    refine ⟨?_, ?_, ?_, ?_, ?_, ?_, ?_⟩
    · simp [Priority.someone_has_priority, hHold]
    · intro sys hsys
      cases sys with
      | evaluateCost => exact ⟨s, by simp [runSys, evaluate_cost, hPE'], hst⟩
      | resolveStack => exact ⟨s, by simp [runSys, resolve_stack, hAP0], hst⟩
      | layerStep bb =>
        cases bb with
        | true => exact absurd rfl hsys
        | false => exact ⟨s, by simp [runSys, trigger_layer_step], hst⟩
      | attackStep bb => exact ⟨s, by simp [runSys, trigger_attack_step, hAP0], hst⟩
      | defendStep bb => exact ⟨s, by simp [runSys, trigger_defend_step, hAP0], hst⟩
      | reactionStep bb => exact ⟨s, by simp [runSys, trigger_reaction_step, hAP0], hst⟩
      | damageStep bb => exact ⟨s, by simp [runSys, trigger_damage_step, hAP0], hst⟩
      | resolutionStep =>
        have hCSD : (s.combatState == some CombatSteps.DamageStep) = false := by
          rcases hCSor with h | h <;> simp [h]
        exact ⟨s, by simp [runSys, trigger_resolution_step, hCSD], hst⟩
      | linkStep bb => exact ⟨s, by simp [runSys, trigger_link_step, hAP0], hst⟩
      | closeStep bb => exact ⟨s, by simp [runSys, trigger_close_step, hAP0], hst⟩
      | startStartPhase bb => exact ⟨s, rfl, hst⟩
      | endStartPhase =>
        refine ⟨end_start_phase s, rfl, ?_⟩
        unfold end_start_phase
        split
        · exact hst
        · exact hst
      | startActionPhase bb => exact start_action_phase_staged s bb hst
      | endActionPhase bb =>
        obtain ⟨ev, hev⟩ := hALex
        exact ⟨s, by simp [runSys, end_action_phase, hev, hAP0], hst⟩
      | triggerEndPhase bb => exact ⟨s, by simp [runSys, trigger_end_phase, hAP0], hst⟩
      | startEndPhase bb => exact ⟨s, rfl, hst⟩
      | endEndPhase => exact end_end_phase_staged s hst
    · obtain ⟨ev, hev⟩ := hALex
      have hlr : runSys ctx (Sys.layerStep true) s
          = some { s with combatState := some CombatSteps.LayerStep,
                          priority := s.priority.release_priority } := by
        simp only [runSys]
        unfold trigger_layer_step
        rcases hCSor with h | h <;> simp [hev, h]
      exact ⟨_, hlr, rfl, rfl⟩
    · exact fun ev s4 h => read_card_keeps_hold ctx ev s s4 hHold h
    · exact fun hero s4 h => read_priority_keeps_hold ctx hero s s4 hHold h
    · exact fun ev s4 h => read_pitch_keeps_hold ctx ev s s4 hHold h
    · exact fun ev s4 h => read_blocks_keeps_hold ctx ev s s4 hHold h

/-- Concrete admission context for the C8 witness. -/
def exC8ctx : Ctx :=
  { cost := [(10, (CardType.Action, 1))], playMeta := [], pitchMeta := [],
    attackPower := [], defense := [], entities := [1, 2], heroEntities := [1, 2],
    subtyped := [], named := [], players := [1, 2] }

/-- Concrete pre-admission state for the C8 witness: hero 1 proposes an
attack it can pay for. -/
def exC8pre : EngineState :=
  { priority := { holding := [1], passed := [2], hold := true, blocks := false,
                  card_played := false },
    stack := [], attackLayer := none,
    proposedEvent := some { target := some 2, card := 10, actor := 1, attack := true },
    combatState := none, gameState := GamePhases.ActionPhase,
    chain := { links := [], openFlag := false },
    heroStates := [(1, { resources := 2, actionPoints := 1, hand := [], pitch := [] }),
                   (2, { resources := 0, actionPoints := 0, hand := [], pitch := [] })],
    healths := [(1, 40), (2, 40)], log := [] }

/-- Concrete staged state for the C8 witness. -/
def exC8staged : EngineState :=
  { exC8pre with
    proposedEvent := none,
    attackLayer := some { target := some 2, card := 10, actor := 1, attack := true },
    heroStates := [(1, { resources := 1, actionPoints := 0, hand := [], pitch := [] }),
                   (2, { resources := 0, actionPoints := 0, hand := [], pitch := [] })],
    priority := { holding := [1], passed := [2], hold := true, blocks := false,
                  card_played := true } }

/-- C8 witness: both halves of the theorem applied at concrete inputs:
the admission run on the concrete attack proposal lands in a staged state
with the hold set, and in the concrete staged state nobody has priority. -/
theorem C8_witness :
    (evaluate_cost exC8ctx exC8pre).map staged = some true
    ∧ exC8staged.priority.someone_has_priority = false := by
  constructor
  · obtain ⟨s1, hrun, hstg, _⟩ :=
      (C8_attack_staging_holds_priority_until_layer_step exC8ctx exC8pre).1
        { target := some 2, card := 10, actor := 1, attack := true }
        CardType.Action 1 1
        { resources := 2, actionPoints := 1, hand := [], pitch := [] }
        rfl rfl rfl rfl rfl (fun _ => by decide) (by decide) (by decide) (by decide)
        (by decide)
    rw [hrun]
    simp only [Option.map]
    rw [hstg]
  · exact ((C8_attack_staging_holds_priority_until_layer_step exC8ctx exC8staged).2
      (by decide)).1

end RustyCards
